import Mathlib

/- Verification development for the HireLens job-posting analyzer.

Modelled components:
* the deterministic score engine (utils/scorer.ts, present in the repository
  layout and imported by the application, modelled from the specification
  because the file itself is not in the source tree);
* the rate-limited request queue of src/utils/rateLimiter.ts, including its
  promise wrapper, error classification and retry-delay extraction;
* the call routing of src/services/geminiService.ts.

JavaScript numbers are modelled as rationals, with NaN made explicit where a
computation can produce it. -/

namespace HireLens

/-! Section 1: the score engine. -/

/-- Modelled from the spec: utils/scorer.ts is listed in the repository layout
and imported by the application code, but the file is not in the source tree.
Input record of the score engine, spec section 3: optional salary bounds,
a work-location tag, an optional cost-of-living score and an optional posting
age in days. -/
structure ExtractedAttributes where
  salaryMin : Option ℚ
  salaryMax : Option ℚ
  workLocationType : String
  costOfLivingScore : Option ℚ
  postingAgeInDays : Option ℚ
  deriving DecidableEq

/-- Output record of the score engine, spec section 3. -/
structure ScoreBreakdown where
  overall : ℤ
  salary : ℚ
  location : ℚ
  costOfLiving : ℚ
  redFlags : ℚ
  deriving DecidableEq

/-- Modelled from the spec: salary sub-score (max 35).  Zero when either bound
is absent; otherwise 25 base points plus a spread bonus, with a guard for
salaryMax equal to zero. -/
def salarySubScore (attrs : ExtractedAttributes) : ℚ :=
  match attrs.salaryMin, attrs.salaryMax with
  | some smin, some smax =>
    let bonus : ℚ :=
      if smax = 0 then 0
      else
        let spread := (smax - smin) / smax
        if spread < 15 / 100 then 10
        else if spread < 30 / 100 then 5
        else 0
    25 + bonus
  | _, _ => 0

/-- Modelled from the spec: location sub-score (max 20), a pure table lookup
with unrecognized values mapping to 0. -/
def locationSubScore (w : String) : ℚ :=
  if w = "remote" then 20
  else if w = "hybrid" then 15
  else if w = "onsite" then 5
  else 0

/-- Clamp a rational into an interval. -/
def clampQ (x lo hi : ℚ) : ℚ := max lo (min x hi)

/-- Modelled from the spec: cost-of-living sub-score (max 30), a linear scale
of the clamped upstream score; absent contributes 0. -/
def costOfLivingSubScore (c : Option ℚ) : ℚ :=
  match c with
  | none => 0
  | some v => clampQ v 0 100 / 100 * 30

/-- Modelled from the spec: posting-freshness sub-score (max 15, labeled
redFlags), a step function over the posting age with half-open boundaries;
negative ages are clamped to 0; absent contributes 0. -/
def redFlagsSubScore (age : Option ℚ) : ℚ :=
  match age with
  | none => 0
  | some v =>
    let a := max v 0
    if a < 7 then 15
    else if a < 14 then 12
    else if a < 30 then 15 / 2
    else if a < 60 then 3
    else 0

/-- Modelled from the spec: calculateScores, the score engine entry point.
The overall score is the rounded sum of the four sub-scores. -/
def calculateScores (attrs : ExtractedAttributes) : ScoreBreakdown :=
  let s := salarySubScore attrs
  let l := locationSubScore attrs.workLocationType
  let c := costOfLivingSubScore attrs.costOfLivingScore
  let r := redFlagsSubScore attrs.postingAgeInDays
  { overall := round (s + l + c + r)
    salary := s
    location := l
    costOfLiving := c
    redFlags := r }

/-! Section 2: JavaScript value modelling shared by the rate limiter and the
service layer (src/utils/rateLimiter.ts, src/services/geminiService.ts). -/

/-- JavaScript number that may be NaN (none); all other values are exact
rationals. -/
def JsNum : Type := Option ℚ
  deriving DecidableEq

/-- Entry of the error.error.details array: d has an at-type tag and, for
RetryInfo entries, a retryDelay string such as 12s (shape used by
extractRetryDelay in src/utils/rateLimiter.ts lines 89-92). -/
structure ErrorDetail where
  atType : Option String
  retryDelay : Option String
  deriving DecidableEq

/-- Nested error payload (the error field of a thrown error object):
code, message and details as accessed by the source. -/
structure InnerError where
  code : Option Int
  message : Option String
  details : Option (List ErrorDetail)
  deriving DecidableEq

/-- Thrown error object as accessed by isRateLimitError and
extractRetryDelay: top-level code, status, message, and a nested error
payload.  Absent fields are none. -/
structure JsError where
  code : Option Int
  status : Option String
  message : Option String
  error : Option InnerError
  deriving DecidableEq

/-- String.prototype.includes: substring containment. -/
def strIncludes (s sub : String) : Bool := decide (sub.data <:+: s.data)

/-- Classification of quota-exhaustion errors, from isRateLimitError in
src/utils/rateLimiter.ts lines 81-87: code 429, status RESOURCE_EXHAUSTED,
a quota or 429 substring in the message, or nested error code 429. -/
def isRateLimitError (e : JsError) : Bool :=
  e.code == some 429 ||
  e.status == some "RESOURCE_EXHAUSTED" ||
  (match e.message with
   | some m => strIncludes m "quota"
   | none => false) ||
  (match e.message with
   | some m => strIncludes m "429"
   | none => false) ||
  (e.error.bind InnerError.code) == some 429

/-- Numeric value of a decimal digit character. -/
def digitVal (c : Char) : ℚ := ((c.toNat - 48 : ℕ) : ℚ)

/-- Accumulate a digit string into a natural-valued rational. -/
def digitsToQ (ds : List Char) : ℚ :=
  ds.foldl (fun acc c => acc * 10 + digitVal c) 0

/-- Model of the JavaScript parseFloat builtin restricted to the shapes the
repository feeds it (an unsigned decimal significand with no exponent, as in
RetryInfo duration strings like 12s and the digits-and-dots regex capture):
parse the longest prefix of digits, an optional dot and more digits; NaN
(none) when no digit is found. -/
def parseFloat (s : String) : JsNum :=
  let intDigits := s.data.takeWhile Char.isDigit
  let rest := s.data.drop intDigits.length
  let fracDigits :=
    match rest with
    | c :: r => if c == '.' then r.takeWhile Char.isDigit else []
    | [] => []
  if intDigits.isEmpty && fracDigits.isEmpty then none
  else some (digitsToQ intDigits + digitsToQ fracDigits / 10 ^ fracDigits.length)

/-- Multiplication of a JavaScript number by a constant; NaN propagates. -/
def jsMul (x : JsNum) (k : ℚ) : JsNum := x.map (fun q => q * k)

/-- Case-insensitive character comparison, for the i regex flag. -/
def charCI (a b : Char) : Bool := a.toLower == b.toLower

/-- Character class of the digits-and-dots capture group. -/
def isDigitOrDot (c : Char) : Bool := c.isDigit || c == '.'

/-- Attempt to match the pattern retry in capture-group s at the start of a
character list, case-insensitively; the capture is a maximal nonempty run of
digits and dots that must be followed by the letter s. -/
def matchRetryAt (cs : List Char) : Option (List Char) :=
  let lit := "retry in ".data
  if (cs.take lit.length).length == lit.length &&
     ((cs.take lit.length).zip lit).all (fun p => charCI p.1 p.2) then
    let rest := cs.drop lit.length
    let run := rest.takeWhile isDigitOrDot
    if run.isEmpty then none
    else
      match rest.drop run.length with
      | c :: _ => if charCI c 's' then some run else none
      | [] => none
  else none

/-- Scan for the first match of the retry-in pattern, returning the capture
group (model of message.match with the regex in src/utils/rateLimiter.ts
line 97). -/
def searchRetryPattern : List Char → Option (List Char)
  | [] => none
  | c :: cs =>
    match matchRetryAt (c :: cs) with
    | some run => some run
    | none => searchRetryPattern cs

/-- Capture group of the retry-in regex applied to a message string. -/
def regexRetryCapture (m : String) : Option String :=
  (searchRetryPattern m.data).map (fun l => String.mk l)

/-- Message-regex fallback path of extractRetryDelay: match the retry-in
pattern against the message and convert the captured seconds to
milliseconds (src/utils/rateLimiter.ts lines 96-100). -/
def retryDelayFromMessage (e : JsError) : Option JsNum :=
  match e.message with
  | some m =>
    match regexRetryCapture m with
    | some cap => some (jsMul (parseFloat cap) 1000)
    | none => none
  | none => none

/-- Retry-hint extraction from src/utils/rateLimiter.ts lines 88-104: find a
RetryInfo entry in error.error.details; when its retryDelay string is truthy
(present and nonempty), return its parsed value in milliseconds (possibly
NaN); otherwise fall back to the retry-in message pattern; none models a null
return. -/
def extractRetryDelay (e : JsError) : Option JsNum :=
  let retryInfo :=
    (e.error.bind InnerError.details).bind
      (fun ds => ds.find? (fun d =>
        ((d.atType.map (fun s => strIncludes s "RetryInfo")).getD false)))
  match retryInfo.bind ErrorDetail.retryDelay with
  | some s => if s ≠ "" then some (jsMul (parseFloat s) 1000) else retryDelayFromMessage e
  | none => retryDelayFromMessage e

/-- JavaScript x or-else d over a nullable number: the default is taken when
the value is null, NaN or 0 (the falsy numbers), as in the expression
extractRetryDelay(error) or-else 12000. -/
def jsNumOrElse (v : Option JsNum) (d : ℚ) : ℚ :=
  match v with
  | none => d
  | some none => d
  | some (some q) => if q = 0 then d else q

/-- Retry delay the code would use before re-attempting a quota-exhausted
task: extractRetryDelay with the 12000 ms fallback
(src/utils/rateLimiter.ts line 67; the same expression is live in
src/services/geminiService.ts line 174). -/
def retryDelayUsed (e : JsError) : ℚ := jsNumOrElse (extractRetryDelay e) 12000

/-! Section 3: the RateLimiter of src/utils/rateLimiter.ts.

Timestamps are integers (Date.now() returns whole milliseconds) and waiting
advances the clock by exactly the requested amount; the time a task execution
itself takes is an arbitrary parameter of the run. -/

/-- Result of awaiting the submitted work fn(): either a value or a thrown
error object. -/
inductive Outcome (α : Type) where
  | ok (v : α)
  | err (e : JsError)
  deriving DecidableEq

/-- State of the promise returned by RateLimiter.execute. -/
inductive PromiseState (α : Type) where
  | pending
  | resolved (v : α)
  | rejected (e : JsError)
  deriving DecidableEq

/-- Resolve callback of a promise: a later settle of an already settled
promise is a no-op. -/
def settleResolve (p : PromiseState α) (v : α) : PromiseState α :=
  match p with
  | PromiseState.pending => PromiseState.resolved v
  | s => s

/-- Reject callback of a promise: a later settle of an already settled
promise is a no-op. -/
def settleReject (p : PromiseState α) (e : JsError) : PromiseState α :=
  match p with
  | PromiseState.pending => PromiseState.rejected e
  | s => s

/-- Closure pushed onto the queue by RateLimiter.execute (lines 11-19 of
src/utils/rateLimiter.ts): await fn() inside a try; on success resolve the
caller promise with the result, on a thrown error the catch rejects it.
Resolve and reject do not throw, so the closure returns normally either way;
the second component is the closure exit (ok means no exception escaped). -/
def queuedClosure (o : Outcome α) (p : PromiseState α) :
    PromiseState α × Except JsError Unit :=
  match o with
  | Outcome.ok v => (settleResolve p v, Except.ok ())
  | Outcome.err e => (settleReject p e, Except.ok ())

/-- Minimum delay between requests in milliseconds (field minDelay, line 6). -/
def minDelay : ℤ := 100

/-- Request ceiling per rolling minute (field requestsPerMinute, line 7). -/
def requestsPerMinute : ℕ := 12

/-- Mutable state of one RateLimiter instance, plus a ghost trace of every
admission timestamp ever recorded (each Date.now() pushed into
requestTimes). -/
structure RLState where
  now : ℤ
  lastRequestTime : ℤ
  requestTimes : List ℤ
  admissions : List ℤ
  deriving DecidableEq

/-- Fresh limiter state (lines 3-8: lastRequestTime 0, empty queue and
window) observed at clock value n0. -/
def initState (n0 : ℤ) : RLState :=
  { now := n0, lastRequestTime := 0, requestTimes := [], admissions := [] }

/-- The filter dropping window entries at or before a cutoff
(requestTimes.filter(time => time > oneMinuteAgo)). -/
def pruneFilter (cutoff : ℤ) (l : List ℤ) : List ℤ :=
  l.filter (fun time => decide (cutoff < time))

/-- Rolling-window admission check at the top of each drain iteration
(lines 32-46): prune entries older than one minute; if the pruned window has
reached the ceiling, wait 60000 - (now - oldest) + 100 ms and prune again
with the same (stale) oneMinuteAgo cutoff captured before the wait. -/
def rateLimitWait (st : RLState) : RLState :=
  let oneMinuteAgo := st.now - 60000
  let rt1 := pruneFilter oneMinuteAgo st.requestTimes
  if requestsPerMinute ≤ rt1.length then
    let oldestRequest := rt1.headD 0
    let waitTime := 60000 - (st.now - oldestRequest) + 100
    if 0 < waitTime then
      { st with now := st.now + waitTime, requestTimes := pruneFilter oneMinuteAgo rt1 }
    else
      { st with requestTimes := rt1 }
  else
    { st with requestTimes := rt1 }

/-- Admission of the dequeued request (lines 49-59): enforce the minimum
spacing since lastRequestTime, then record Date.now() as lastRequestTime and
push it into the window; the first component is the recorded admission
timestamp. -/
def admitRequest (st : RLState) : ℤ × RLState :=
  let timeSinceLastRequest := st.now - st.lastRequestTime
  let st1 :=
    if timeSinceLastRequest < minDelay then
      { st with now := st.now + (minDelay - timeSinceLastRequest) }
    else st
  (st1.now,
   { st1 with
      lastRequestTime := st1.now
      requestTimes := st1.requestTimes ++ [st1.now]
      admissions := st1.admissions ++ [st1.now] })

/-- Task as seen by the drain loop: the submitted work's eventual outcome,
an identifier for bookkeeping, and how many milliseconds the awaited
execution takes. -/
structure TaskSpec (α : Type) where
  id : ℕ
  outcome : Outcome α
  dur : ℕ
  deriving DecidableEq

/-- Record of one task execution: which task ran, the admission timestamp
recorded for it, and the state of its caller promise afterwards. -/
structure ExecEvent (α : Type) where
  id : ℕ
  time : ℤ
  promise : PromiseState α
  deriving DecidableEq

/-- Ceiling of the retry delay in whole milliseconds: setTimeout fires no
earlier than requested and Date.now() is integral. -/
def retryWaitMs (e : JsError) : ℤ := ⌈retryDelayUsed e⌉

/-- Drain loop of processQueue (lines 24-79), one recursive step per
iteration with fuel bounding the number of iterations: rate-window wait,
admission, then await request(); if the awaited closure threw a rate-limit
classified error, wait the extracted retry delay and re-insert the task at
the front (the counter in the third component records how often this retry
branch runs); other thrown errors are swallowed and the loop continues.
Returns the final limiter state, the execution events in order, and the
retry-branch counter. -/
def processQueue : ℕ → RLState → List (TaskSpec α) →
    RLState × List (ExecEvent α) × ℕ
  | 0, st, _ => (st, [], 0)
  | _ + 1, st, [] => (st, [], 0)
  | fuel + 1, st, task :: rest =>
    let st1 := rateLimitWait st
    let ar := admitRequest st1
    let run := queuedClosure task.outcome PromiseState.pending
    let st3 := { ar.2 with now := ar.2.now + (task.dur : ℤ) }
    let ev : ExecEvent α := { id := task.id, time := ar.1, promise := run.1 }
    match run.2 with
    | Except.ok _ =>
      let res := processQueue fuel st3 rest
      (res.1, ev :: res.2.1, res.2.2)
    | Except.error e =>
      if isRateLimitError e then
        let st4 := { st3 with now := st3.now + retryWaitMs e }
        let res := processQueue fuel st4 (task :: rest)
        (res.1, ev :: res.2.1, res.2.2 + 1)
      else
        let res := processQueue fuel st3 rest
        (res.1, ev :: res.2.1, res.2.2)

/-- One full drain iteration as a state transformer: rate-window wait,
admission, then the task execution taking dur milliseconds. -/
def stepState (st : RLState) (dur : ℕ) : RLState :=
  let ar := admitRequest (rateLimitWait st)
  { ar.2 with now := ar.2.now + (dur : ℤ) }

/-- Admission timestamp recorded for the task processed from state st. -/
def admitTime (st : RLState) : ℤ := (admitRequest (rateLimitWait st)).1

/-! Section 4: interleaving model of execute and processQueue.

JavaScript is single-threaded: the synchronous section of execute (push onto
the queue, then the processing-flag check at the top of processQueue) runs
atomically, and a drain loop suspends only at its awaits.  States track the
task queue, the processing flag, the set of active drain loops with their
positions, and ghost submission and start orders. -/

/-- Position of an active drain loop: back at the top of the while loop, or
suspended awaiting a task it has dequeued. -/
inductive DrainPC where
  | atHead
  | running (id : ℕ)
  deriving DecidableEq

/-- Whether a drain loop currently has a task in flight. -/
def DrainPC.inFlight : DrainPC → Bool
  | DrainPC.atHead => false
  | DrainPC.running _ => true

/-- Scheduler state: pending task ids in queue order, the processing flag,
the active drain loops, and ghost lists of all submissions and of the tasks
whose execution has begun, each in order. -/
structure SchedState where
  queue : List ℕ
  processing : Bool
  drainers : List DrainPC
  submitted : List ℕ
  started : List ℕ
  deriving DecidableEq

/-- Initial scheduler state of a fresh RateLimiter instance. -/
def initSched : SchedState :=
  { queue := [], processing := false, drainers := [], submitted := [], started := [] }

/-- Interleaving steps.  submitBusy and submitSpawn are execute: push the
task, then processQueue either returns at once (processing already true) or
sets the flag and starts a new drain loop.  startTask dequeues the head task
at the top of a drain loop and suspends awaiting it; finishTask resumes the
loop after the await; exitLoop clears the flag and ends a drain loop that
finds the queue empty. -/
inductive SchedStep : SchedState → SchedState → Prop where
  | submitBusy (s : SchedState) (id : ℕ) (h : s.processing = true) :
      SchedStep s { s with queue := s.queue ++ [id], submitted := s.submitted ++ [id] }
  | submitSpawn (s : SchedState) (id : ℕ) (h : s.processing = false) :
      SchedStep s { s with
        queue := s.queue ++ [id]
        submitted := s.submitted ++ [id]
        processing := true
        drainers := DrainPC.atHead :: s.drainers }
  | startTask (s : SchedState) (d1 d2 : List DrainPC) (id : ℕ) (rest : List ℕ)
      (hd : s.drainers = d1 ++ DrainPC.atHead :: d2) (hq : s.queue = id :: rest) :
      SchedStep s { s with
        queue := rest
        drainers := d1 ++ DrainPC.running id :: d2
        started := s.started ++ [id] }
  | finishTask (s : SchedState) (d1 d2 : List DrainPC) (id : ℕ)
      (hd : s.drainers = d1 ++ DrainPC.running id :: d2) :
      SchedStep s { s with drainers := d1 ++ DrainPC.atHead :: d2 }
  | exitLoop (s : SchedState) (d1 d2 : List DrainPC)
      (hd : s.drainers = d1 ++ DrainPC.atHead :: d2) (hq : s.queue = []) :
      SchedStep s { s with drainers := d1 ++ d2, processing := false }

/-- Reachability from the fresh instance state. -/
def SchedReach (s : SchedState) : Prop :=
  Relation.ReflTransGen SchedStep initSched s

/-- Number of tasks currently in flight across all drain loops. -/
def inFlightCount (s : SchedState) : ℕ :=
  (s.drainers.filter DrainPC.inFlight).length

/-! Section 5: call routing in src/services/geminiService.ts. -/

/-- Events observable at the service boundary: an admission by the
RateLimiter (a timestamp recorded for the task before its work runs) and a
call of the external model (ai.models.generateContent). -/
inductive ApiEvent where
  | throttleAdmit
  | modelCall
  deriving DecidableEq

/-- Environment of one analyzeJobPosting invocation: whether the API key is
configured (the ai client exists and API_KEY is usable), and the outcome of
awaiting the generateContent call including response parsing. -/
structure GeminiEnv (α : Type) where
  apiKeyOk : Bool
  modelResult : Outcome α

/-- Error object carrying only a message, as built by new Error(msg). -/
def mkMessageError (m : String) : JsError :=
  { code := none, status := none, message := some m, error := none }

/-- JavaScript a or-else b over a nullable string: the default is taken for
null and for the empty string. -/
def jsStrOrElse (v : Option String) (d : String) : String :=
  match v with
  | some s => if s = "" then d else s
  | none => d

/-- Message selected by the template of the final rethrow in
analyzeJobPosting: error message, else nested error message, else Unknown
error. -/
def analyzeErrorMessage (e : JsError) : String :=
  jsStrOrElse e.message (jsStrOrElse (e.error.bind InnerError.message) "Unknown error")

/-- Catch block of analyzeJobPosting (lines 110-122): map an invalid-key
error to a dedicated message, rethrow the custom key-not-set error as is,
and wrap anything else in a failed-analysis message. -/
def wrapAnalyzeJobError (e : JsError) : JsError :=
  if ((match e.message with
       | some m => strIncludes m "API key not valid"
       | none => false) ||
      (match e.error.bind InnerError.message with
       | some m => strIncludes m "API key"
       | none => false)) then
    mkMessageError "Invalid API key. Please check your .env file and ensure GEMINI_API_KEY is set correctly. Restart the dev server after updating .env"
  else if (match e.message with
           | some m => strIncludes m "API key is not set"
           | none => false) then
    e
  else
    mkMessageError ("Failed to get analysis from Gemini API: " ++ analyzeErrorMessage e ++ ". Please check the console for details.")

/-- Run of analyzeJobPosting (src/services/geminiService.ts lines 65-123)
together with the trace of boundary events it produces: without a configured
key it throws at once having called nothing; otherwise it awaits
ai.models.generateContent directly - no call to rateLimiter.execute occurs
anywhere in the function - and either returns the parsed record or rethrows
through its catch block. -/
def analyzeJobPostingRun (env : GeminiEnv α) : Except JsError α × List ApiEvent :=
  if env.apiKeyOk = false then
    (Except.error (mkMessageError "Gemini API key is not configured. Please create a .env file in the project root with GEMINI_API_KEY=your_api_key_here"), [])
  else
    match env.modelResult with
    | Outcome.ok v => (Except.ok v, [ApiEvent.modelCall])
    | Outcome.err e => (Except.error (wrapAnalyzeJobError e), [ApiEvent.modelCall])

/-- Routing a piece of work through rateLimiter.execute, for contrast: the
throttle records an admission timestamp for the task before the work runs
(src/utils/rateLimiter.ts lines 10-22 and 57-62), so a throttled call is
preceded by a throttleAdmit event. -/
def rateLimiterExecuteRun (work : GeminiEnv α → Except JsError α × List ApiEvent)
    (env : GeminiEnv α) : Except JsError α × List ApiEvent :=
  let r := work env
  (r.1, ApiEvent.throttleAdmit :: r.2)

/-! Section 6: proof-side definitions. -/

/-- Membership of an admission timestamp a in the trailing 60-second window
ending at u. -/
def windowPred (u a : ℤ) : Bool := decide (a ≤ u) && decide (u < a + 60000)

/-- Invariant of the limiter state: admissions are spaced by at least
minDelay; the window list is exactly the admissions above some cutoff that
is at least one minute old; admissions never lie in the future;
lastRequestTime is the last admission; and no trailing 60-second window
contains more than requestsPerMinute admissions. -/
structure RLInv (st : RLState) : Prop where
  chain : List.Chain' (fun a b => a + minDelay ≤ b) st.admissions
  cutoff : ∃ c, c + 60000 ≤ st.now ∧
    st.requestTimes = st.admissions.filter (fun a => decide (c < a))
  leNow : ∀ a ∈ st.admissions, a ≤ st.now
  lastEq : st.lastRequestTime = st.admissions.getLastD 0
  window : ∀ u : ℤ, (st.admissions.filter (windowPred u)).length ≤ requestsPerMinute

/-- Invariant of the scheduler state: a cleared processing flag means no
drain loop exists, at most one drain loop is ever active, and the started
tasks followed by the still-queued tasks are exactly the submissions in
order. -/
def SchedInv (s : SchedState) : Prop :=
  (s.processing = false → s.drainers = []) ∧
  s.drainers.length ≤ 1 ∧
  s.started ++ s.queue = s.submitted

/-- Structured retry hint of an error: the retryDelay string of the first
RetryInfo entry of error.error.details, when present and nonempty. -/
def structuredHint (e : JsError) : Option String :=
  match (e.error.bind InnerError.details).bind
      (fun ds => ds.find? (fun d =>
        ((d.atType.map (fun s => strIncludes s "RetryInfo")).getD false))) |>.bind
      ErrorDetail.retryDelay with
  | some s => if s ≠ "" then some s else none
  | none => none

/-- Textual retry hint of an error: the capture of the retry-in pattern in
the error message. -/
def messageHint (e : JsError) : Option String :=
  e.message.bind regexRetryCapture

/-- Delay C6 prescribes, written from the claim: the structured RetryInfo
hint in seconds converted to milliseconds when present, else the message
pattern in seconds converted to milliseconds, else the fixed 12000 ms
fallback. -/
def claimRetryDelay (e : JsError) : ℚ :=
  match structuredHint e with
  | some s => (parseFloat s).getD 0 * 1000
  | none =>
    match messageHint e with
    | some cap => (parseFloat cap).getD 0 * 1000
    | none => 12000

/-- Fallback applied to a selected hint: 12000 when the hint milliseconds
value is NaN or zero. -/
def fallback12IfFalsy : JsNum → ℚ
  | none => 12000
  | some q => if q = 0 then 12000 else q

/-- Amended delay determination: same priority order as the claim, except
that a selected hint that parses to NaN or to 0 also falls back to
12000 ms. -/
def amendedRetryDelay (e : JsError) : ℚ :=
  match structuredHint e with
  | some s => fallback12IfFalsy (jsMul (parseFloat s) 1000)
  | none =>
    match messageHint e with
    | some cap => fallback12IfFalsy (jsMul (parseFloat cap) 1000)
    | none => 12000

/-- Quota-exhaustion error carrying a structured RetryInfo hint of zero
seconds. -/
def quotaZeroHint : JsError :=
  { code := some 429
    status := none
    message := none
    error := some
      { code := some 429
        message := none
        details := some
          [{ atType := some "type.googleapis.com/google.rpc.RetryInfo"
             retryDelay := some "0s" }] } }

/-- Quota-exhaustion error as thrown by the transport with code 429 and no
hint at all. -/
def quotaPlain : JsError :=
  { code := some 429, status := none, message := none, error := none }

/-- Error not classified as quota exhaustion. -/
def plainFailure : JsError :=
  { code := none, status := none, message := some "network down", error := none }

theorem salarySubScore_bounds (attrs : ExtractedAttributes) :
    0 ≤ salarySubScore attrs ∧ salarySubScore attrs ≤ 35 := by
  unfold salarySubScore
  rcases attrs.salaryMin with _ | smin <;> rcases attrs.salaryMax with _ | smax <;>
    simp only [] <;> norm_num
  split <;> norm_num
  split <;> norm_num
  split <;> norm_num

theorem locationSubScore_bounds (w : String) :
    0 ≤ locationSubScore w ∧ locationSubScore w ≤ 20 := by
  unfold locationSubScore
  split <;> norm_num
  split <;> norm_num
  split <;> norm_num

theorem costOfLivingSubScore_bounds (c : Option ℚ) :
    0 ≤ costOfLivingSubScore c ∧ costOfLivingSubScore c ≤ 30 := by
  unfold costOfLivingSubScore
  rcases c with _ | v
  · norm_num
  · unfold clampQ
    constructor
    · positivity
    · have h1 : min v (100 : ℚ) ≤ 100 := min_le_right _ _
      have h2 : max (0 : ℚ) (min v 100) ≤ 100 := max_le (by norm_num) h1
      nlinarith

theorem redFlagsSubScore_bounds (age : Option ℚ) :
    0 ≤ redFlagsSubScore age ∧ redFlagsSubScore age ≤ 15 := by
  unfold redFlagsSubScore
  rcases age with _ | v
  · norm_num
  · simp only []
    split <;> norm_num
    split <;> norm_num
    split <;> norm_num
    split <;> norm_num

theorem queuedClosure_exit (o : Outcome α) (p : PromiseState α) :
    (queuedClosure o p).2 = Except.ok () := by
  cases o <;> rfl

theorem queuedClosure_settles (o : Outcome α) :
    (queuedClosure o PromiseState.pending).1 =
      match o with
      | Outcome.ok v => PromiseState.resolved v
      | Outcome.err e => PromiseState.rejected e := by
  cases o <;> rfl

theorem processQueue_cons (fuel : ℕ) (st : RLState) (task : TaskSpec α)
    (rest : List (TaskSpec α)) :
    processQueue (fuel + 1) st (task :: rest) =
      ((processQueue fuel (stepState st task.dur) rest).1,
       { id := task.id, time := admitTime st,
         promise := (queuedClosure task.outcome PromiseState.pending).1 } ::
         (processQueue fuel (stepState st task.dur) rest).2.1,
       (processQueue fuel (stepState st task.dur) rest).2.2) := by
  cases task with
  | mk i o d => cases o <;> simp [processQueue, stepState, admitTime, queuedClosure]

theorem processQueue_retries (fuel : ℕ) (st : RLState) (q : List (TaskSpec α)) :
    (processQueue fuel st q).2.2 = 0 := by
  induction fuel generalizing st q with
  | zero => rfl
  | succ n ih =>
    cases q with
    | nil => rfl
    | cons task rest => rw [processQueue_cons]; exact ih ..

theorem processQueue_event_at (fuel : ℕ) (st : RLState) (q : List (TaskSpec α))
    (h : q.length ≤ fuel) (i : ℕ) (task : TaskSpec α) (ht : q[i]? = some task) :
    ∃ ev, (processQueue fuel st q).2.1[i]? = some ev ∧ ev.id = task.id ∧
      ev.promise = (queuedClosure task.outcome PromiseState.pending).1 := by
  induction q generalizing fuel st i with
  | nil => simp at ht
  | cons hd tl ih =>
    cases fuel with
    | zero => simp at h
    | succ n =>
      rw [processQueue_cons]
      cases i with
      | zero =>
        simp only [List.getElem?_cons_zero, Option.some.injEq] at ht
        subst ht
        exact ⟨{ id := hd.id, time := admitTime st,
                 promise := (queuedClosure hd.outcome PromiseState.pending).1 },
               by simp, rfl, rfl⟩
      | succ j =>
        simp only [List.getElem?_cons_succ] at ht
        simp only [List.length_cons, Nat.add_le_add_iff_right] at h
        simpa using ih n (stepState st hd.dur) (by omega) j ht

theorem processQueue_events_length (fuel : ℕ) (st : RLState) (q : List (TaskSpec α))
    (h : q.length ≤ fuel) :
    (processQueue fuel st q).2.1.length = q.length := by
  induction q generalizing fuel st with
  | nil => cases fuel <;> rfl
  | cons hd tl ih =>
    cases fuel with
    | zero => simp at h
    | succ n =>
      rw [processQueue_cons]
      simp only [List.length_cons] at h ⊢
      rw [ih n (stepState st hd.dur) (by omega)]

theorem processQueue_final_state (fuel : ℕ) (st : RLState) (q : List (TaskSpec α))
    (P : RLState → Prop) (hinit : P st)
    (hstep : ∀ s d, P s → P (stepState s d)) :
    P (processQueue fuel st q).1 := by
  induction q generalizing fuel st with
  | nil => cases fuel <;> exact hinit
  | cons hd tl ih =>
    cases fuel with
    | zero => exact hinit
    | succ n =>
      rw [processQueue_cons]
      exact ih n (stepState st hd.dur) (hstep st hd.dur hinit)

theorem admissions_pairwise {adm : List ℤ}
    (h : List.Chain' (fun a b => a + minDelay ≤ b) adm) :
    List.Pairwise (fun a b : ℤ => a < b) adm := by
  have h2 : List.Chain' (fun a b : ℤ => a < b) adm := by
    refine List.Chain'.imp ?_ h
    intro a b hab
    unfold minDelay at hab
    omega
  exact List.chain'_iff_pairwise.mp h2

theorem filter_length_mono {l : List ℤ} {p q : ℤ → Bool}
    (h : ∀ a ∈ l, p a = true → q a = true) :
    (l.filter p).length ≤ (l.filter q).length := by
  rw [← List.countP_eq_length_filter, ← List.countP_eq_length_filter]
  exact List.countP_mono_left h

theorem pruneFilter_of_filter (c m : ℤ) (l : List ℤ) :
    pruneFilter m (l.filter (fun a => decide (c < a))) =
      l.filter (fun a => decide (max c m < a)) := by
  unfold pruneFilter
  rw [List.filter_filter]
  refine List.filter_congr ?_
  intro a _
  by_cases h1 : m < a <;> by_cases h2 : c < a <;>
    simp [h1, h2, max_lt_iff]

theorem rateLimitWait_spec (st : RLState) (h : RLInv st) :
    (rateLimitWait st).admissions = st.admissions ∧
    (rateLimitWait st).lastRequestTime = st.lastRequestTime ∧
    st.now ≤ (rateLimitWait st).now ∧
    (∃ c, c + 60000 ≤ (rateLimitWait st).now ∧
      (rateLimitWait st).requestTimes =
        st.admissions.filter (fun a => decide (c < a))) ∧
    ((rateLimitWait st).requestTimes.length + 1 ≤ requestsPerMinute ∨
     (∃ r0 tl, (rateLimitWait st).requestTimes = r0 :: tl ∧
        tl.length + 1 = requestsPerMinute ∧
        r0 + 60000 < (rateLimitWait st).now)) := by
  obtain ⟨c, hc, hrt⟩ := h.cutoff
  have hcomp : pruneFilter (st.now - 60000) st.requestTimes =
      st.admissions.filter (fun a => decide (max c (st.now - 60000) < a)) := by
    rw [hrt]; exact pruneFilter_of_filter c (st.now - 60000) st.admissions
  have hcm : max c (st.now - 60000) + 60000 ≤ st.now := by
    rcases max_cases c (st.now - 60000) with ⟨h1, _⟩ | ⟨h1, _⟩ <;> omega
  have hlen : (pruneFilter (st.now - 60000) st.requestTimes).length ≤ requestsPerMinute := by
    rw [hcomp]
    refine le_trans (filter_length_mono ?_) (h.window st.now)
    intro a ha hpa
    have ha1 : a ≤ st.now := h.leNow a ha
    have ha2 : max c (st.now - 60000) < a := of_decide_eq_true hpa
    unfold windowPred
    have ha3 : st.now < a + 60000 := by omega
    simp [ha1, ha3]
  unfold rateLimitWait
  simp only []
  by_cases hb : requestsPerMinute ≤ (pruneFilter (st.now - 60000) st.requestTimes).length
  · rw [if_pos hb]
    have hlen12 : (pruneFilter (st.now - 60000) st.requestTimes).length = requestsPerMinute :=
      le_antisymm hlen hb
    have hne : pruneFilter (st.now - 60000) st.requestTimes ≠ [] := by
      intro h0
      rw [h0] at hlen12
      simp [requestsPerMinute] at hlen12
    obtain ⟨r0, tl, hcons⟩ := List.exists_cons_of_ne_nil hne
    have hr0mem : r0 ∈ pruneFilter (st.now - 60000) st.requestTimes := by
      rw [hcons]; exact List.mem_cons_self r0 tl
    have hr0big : max c (st.now - 60000) < r0 := by
      rw [hcomp] at hr0mem
      exact of_decide_eq_true (List.mem_filter.mp hr0mem).2
    have hr0now : st.now - 60000 < r0 := lt_of_le_of_lt (le_max_right _ _) hr0big
    have hhead : (pruneFilter (st.now - 60000) st.requestTimes).headD 0 = r0 := by
      rw [hcons]; rfl
    have hw : (0 : ℤ) <
        60000 - (st.now - (pruneFilter (st.now - 60000) st.requestTimes).headD 0) + 100 := by
      rw [hhead]; omega
    rw [if_pos hw]
    have hstale : pruneFilter (st.now - 60000) (pruneFilter (st.now - 60000) st.requestTimes) =
        pruneFilter (st.now - 60000) st.requestTimes := by
      rw [hcomp, pruneFilter_of_filter, max_assoc, max_self, ← hcomp]
    rw [hhead] at hw
    refine ⟨rfl, rfl, ?_, ?_, Or.inr ?_⟩
    · rw [hhead]
      show st.now ≤ st.now + (60000 - (st.now - r0) + 100)
      omega
    · refine ⟨max c (st.now - 60000), ?_, ?_⟩
      · rw [hhead]
        show max c (st.now - 60000) + 60000 ≤ st.now + (60000 - (st.now - r0) + 100)
        omega
      · show pruneFilter (st.now - 60000) (pruneFilter (st.now - 60000) st.requestTimes) = _
        rw [hstale, hcomp]
    · refine ⟨r0, tl, ?_, ?_, ?_⟩
      · show pruneFilter (st.now - 60000) (pruneFilter (st.now - 60000) st.requestTimes) = r0 :: tl
        rw [hstale, hcons]
      · have h12 := hlen12
        rw [hcons] at h12
        simpa using h12
      · rw [hhead]
        show r0 + 60000 < st.now + (60000 - (st.now - r0) + 100)
        omega
  · rw [if_neg hb]
    refine ⟨rfl, rfl, le_refl _, ⟨max c (st.now - 60000), hcm, hcomp⟩, Or.inl ?_⟩
    show (pruneFilter (st.now - 60000) st.requestTimes).length + 1 ≤ requestsPerMinute
    omega

theorem admitRequest_spec (s : RLState) :
    s.now ≤ (admitRequest s).1 ∧
    s.lastRequestTime + minDelay ≤ (admitRequest s).1 ∧
    (admitRequest s).2.now = (admitRequest s).1 ∧
    (admitRequest s).2.lastRequestTime = (admitRequest s).1 ∧
    (admitRequest s).2.requestTimes = s.requestTimes ++ [(admitRequest s).1] ∧
    (admitRequest s).2.admissions = s.admissions ++ [(admitRequest s).1] := by
  unfold admitRequest
  simp only []
  by_cases hd : s.now - s.lastRequestTime < minDelay
  · rw [if_pos hd]
    unfold minDelay at hd
    refine ⟨?_, ?_, trivial, trivial, rfl, rfl⟩
    · show s.now ≤ s.now + (minDelay - (s.now - s.lastRequestTime))
      unfold minDelay
      omega
    · show s.lastRequestTime + minDelay ≤ s.now + (minDelay - (s.now - s.lastRequestTime))
      unfold minDelay
      omega
  · rw [if_neg hd]
    unfold minDelay at hd
    refine ⟨?_, ?_, trivial, trivial, rfl, rfl⟩
    · show s.now ≤ s.now
      omega
    · show s.lastRequestTime + minDelay ≤ s.now
      unfold minDelay
      omega

theorem initState_inv (n0 : ℤ) : RLInv (initState n0) := by
  refine ⟨List.chain'_nil, ⟨n0 - 60000, ?_, rfl⟩, ?_, rfl, ?_⟩
  · show n0 - 60000 + 60000 ≤ n0
    omega
  · intro a ha
    simp [initState] at ha
  · intro u
    simp [initState, requestsPerMinute]

theorem stepState_inv (st : RLState) (d : ℕ) (h : RLInv st) : RLInv (stepState st d) := by
  obtain ⟨hadm, hlast, hnow, ⟨c, hc, hrt⟩, hdisj⟩ := rateLimitWait_spec st h
  obtain ⟨ht1, ht2, hs1, hs2, hs3, hs4⟩ := admitRequest_spec (rateLimitWait st)
  set sw := rateLimitWait st with hswdef
  set t := (admitRequest sw).1 with htdef
  have hct : c + 60000 ≤ t := le_trans hc ht1
  have hlt : st.lastRequestTime + minDelay ≤ t := by rw [← hlast]; exact ht2
  have f1 : (stepState st d).admissions = st.admissions ++ [t] := by
    show (admitRequest sw).2.admissions = _
    rw [hs4, hadm]
  have f2 : (stepState st d).requestTimes = sw.requestTimes ++ [t] := by
    show (admitRequest sw).2.requestTimes = _
    rw [hs3]
  have f3 : (stepState st d).now = t + (d : ℤ) := by
    show (admitRequest sw).2.now + (d : ℤ) = _
    rw [hs1]
  have f4 : (stepState st d).lastRequestTime = t := by
    show (admitRequest sw).2.lastRequestTime = _
    rw [hs2]
  have hdnn : (0 : ℤ) ≤ (d : ℤ) := Int.ofNat_nonneg d
  have hpair : List.Pairwise (fun a b : ℤ => a < b) st.admissions :=
    admissions_pairwise h.chain
  have hnd : st.admissions.Nodup := hpair.nodup
  refine ⟨?_, ?_, ?_, ?_, ?_⟩
  · rw [f1]
    refine List.Chain'.append h.chain (List.chain'_singleton t) ?_
    intro x hx y hy
    simp only [List.head?_cons, Option.mem_def, Option.some.injEq] at hy
    subst hy
    have hx2 : st.admissions.getLastD 0 = x := by
      rw [List.getLastD_eq_getLast?]
      rw [Option.mem_def] at hx
      rw [hx]
      rfl
    rw [← hx2, ← h.lastEq]
    exact hlt
  · refine ⟨c, ?_, ?_⟩
    · rw [f3]; omega
    · rw [f2, f1, hrt, List.filter_append]
      have hcltt : decide (c < t) = true := decide_eq_true (by omega)
      simp [hcltt]
  · rw [f1, f3]
    intro a ha
    rcases List.mem_append.mp ha with ha2 | ha2
    · have := h.leNow a ha2
      omega
    · simp only [List.mem_singleton] at ha2
      omega
  · rw [f4, f1]
    exact (List.getLastD_concat 0 t st.admissions).symm
  · intro u
    rw [f1, List.filter_append, List.length_append]
    by_cases hwt : windowPred u t = true
    · have hut : t ≤ u ∧ u < t + 60000 := by
        unfold windowPred at hwt
        simpa using hwt
      have hsingle : ([t].filter (windowPred u)).length = 1 := by
        simp [hwt]
      rw [hsingle]
      have hsubRT : ∀ a ∈ st.admissions.filter (windowPred u), a ∈ sw.requestTimes := by
        intro a ha
        have ha1 : a ∈ st.admissions := List.mem_of_mem_filter ha
        have ha2 : windowPred u a = true := List.of_mem_filter ha
        have ha3 : a ≤ u ∧ u < a + 60000 := by
          unfold windowPred at ha2
          simpa using ha2
        rw [hrt]
        refine List.mem_filter.mpr ⟨ha1, decide_eq_true ?_⟩
        omega
      have hAnd : (st.admissions.filter (windowPred u)).Nodup := hnd.filter _
      rcases hdisj with hlen | ⟨r0, tl, hcons, htl, hr0⟩
      · have hle : (st.admissions.filter (windowPred u)).length ≤ sw.requestTimes.length := by
          refine List.Subperm.length_le ?_
          exact List.Nodup.subperm hAnd (fun a ha => hsubRT a ha)
        omega
      · have hsubtl : ∀ a ∈ st.admissions.filter (windowPred u), a ∈ tl := by
          intro a ha
          have ha2 : windowPred u a = true := List.of_mem_filter ha
          have ha3 : a ≤ u ∧ u < a + 60000 := by
            unfold windowPred at ha2
            simpa using ha2
          have hmem : a ∈ r0 :: tl := by
            rw [← hcons]
            exact hsubRT a ha
          rcases List.mem_cons.mp hmem with hr | hr
          · exfalso
            omega
          · exact hr
        have hle : (st.admissions.filter (windowPred u)).length ≤ tl.length := by
          refine List.Subperm.length_le ?_
          exact List.Nodup.subperm hAnd (fun a ha => hsubtl a ha)
        omega
    · have hsingle : ([t].filter (windowPred u)).length = 0 := by
        simp only [List.filter, hwt]
        simp [Bool.eq_false_iff.mpr hwt]
      rw [hsingle]
      have := h.window u
      omega

theorem processQueue_inv (fuel : ℕ) (n0 : ℤ) (q : List (TaskSpec α)) :
    RLInv (processQueue fuel (initState n0) q).1 :=
  processQueue_final_state fuel (initState n0) q RLInv (initState_inv n0)
    (fun s d hs => stepState_inv s d hs)

theorem focus_nil {d1 d2 : List DrainPC} {pc : DrainPC}
    (h : (d1 ++ pc :: d2).length ≤ 1) : d1 = [] ∧ d2 = [] := by
  rw [List.length_append, List.length_cons] at h
  constructor
  · exact List.length_eq_zero.mp (by omega)
  · exact List.length_eq_zero.mp (by omega)

theorem schedStep_inv {s s2 : SchedState} (hs : SchedStep s s2) (h : SchedInv s) :
    SchedInv s2 := by
  obtain ⟨h1, h2, h3⟩ := h
  cases hs with
  | submitBusy id hp =>
    refine ⟨?_, h2, ?_⟩
    · intro hf
      rw [hp] at hf
      exact absurd hf (by simp)
    · show s.started ++ (s.queue ++ [id]) = s.submitted ++ [id]
      rw [← List.append_assoc, h3]
  | submitSpawn id hp =>
    refine ⟨?_, ?_, ?_⟩
    · intro hf
      exact absurd hf (by simp)
    · have hnil : s.drainers = [] := h1 hp
      simp [hnil]
    · show s.started ++ (s.queue ++ [id]) = s.submitted ++ [id]
      rw [← List.append_assoc, h3]
  | startTask d1 d2 id rest hd hq =>
    have hfoc : d1 = [] ∧ d2 = [] := focus_nil (hd ▸ h2)
    obtain ⟨he1, he2⟩ := hfoc
    subst he1
    subst he2
    have hptrue : s.processing = true := by
      cases hsp : s.processing with
      | true => rfl
      | false =>
        have := h1 hsp
        rw [this] at hd
        exact absurd hd (by simp)
    refine ⟨?_, by simp, ?_⟩
    · intro hf
      rw [hptrue] at hf
      exact absurd hf (by simp)
    · show (s.started ++ [id]) ++ rest = s.submitted
      rw [List.append_assoc]
      show s.started ++ (id :: rest) = s.submitted
      rw [← hq, h3]
  | finishTask d1 d2 id hd =>
    have hfoc : d1 = [] ∧ d2 = [] := focus_nil (hd ▸ h2)
    obtain ⟨he1, he2⟩ := hfoc
    subst he1
    subst he2
    have hptrue : s.processing = true := by
      cases hsp : s.processing with
      | true => rfl
      | false =>
        have := h1 hsp
        rw [this] at hd
        exact absurd hd (by simp)
    refine ⟨?_, by simp, h3⟩
    intro hf
    rw [hptrue] at hf
    exact absurd hf (by simp)
  | exitLoop d1 d2 hd hq =>
    have hfoc : d1 = [] ∧ d2 = [] := focus_nil (hd ▸ h2)
    obtain ⟨he1, he2⟩ := hfoc
    subst he1
    subst he2
    exact ⟨fun _ => rfl, by simp, h3⟩

theorem schedReach_inv {s : SchedState} (h : SchedReach s) : SchedInv s := by
  unfold SchedReach at h
  induction h with
  | refl => exact ⟨fun _ => rfl, by simp [initSched], rfl⟩
  | tail hab hbc ih => exact schedStep_inv hbc ih

theorem jsNumOrElse_some (x : JsNum) :
    jsNumOrElse (some x) 12000 = fallback12IfFalsy x := by
  cases x <;> rfl

theorem retryDelayFromMessage_or (e : JsError) :
    jsNumOrElse (retryDelayFromMessage e) 12000 =
      (match messageHint e with
       | some cap => fallback12IfFalsy (jsMul (parseFloat cap) 1000)
       | none => 12000) := by
  unfold retryDelayFromMessage messageHint
  cases e.message with
  | none => rfl
  | some m =>
    show jsNumOrElse
        (match regexRetryCapture m with
         | some cap => some (jsMul (parseFloat cap) 1000)
         | none => none) 12000 =
      (match regexRetryCapture m with
       | some cap => fallback12IfFalsy (jsMul (parseFloat cap) 1000)
       | none => 12000)
    cases regexRetryCapture m with
    | none => rfl
    | some cap => exact jsNumOrElse_some _

/-- Claim C1, evaluated at the failing input: a single task whose work fails
with a quota-classified error (code 429).  The claim says the throttle sleeps,
re-queues the task at the front and leaves the caller future pending; the code
instead rejects the caller future on the first failure and never runs the
retry branch, because the closure pushed by execute catches the failure
itself.  This run produces exactly one event, with the promise rejected, and
a retry-branch count of zero. -/
theorem C1_quota_failure_rejected_immediately :
    (processQueue 1 (initState 1000000)
        [({ id := 0, outcome := Outcome.err quotaPlain, dur := 0 } : TaskSpec ℕ)]).2 =
      ([{ id := 0, time := 1000000, promise := PromiseState.rejected quotaPlain }], 0) ∧
    isRateLimitError quotaPlain = true := by
  exact ⟨by decide, by decide⟩

/-- Claim C2, counterexample: analyzeJobPosting with a configured key and a
successful model response performs its model call with no rateLimiter
admission at all, so the call is not admitted through the process-wide
throttle as the claim states. -/
theorem C2_untracked_model_call_counterexample :
    (analyzeJobPostingRun ({ apiKeyOk := true, modelResult := Outcome.ok 0 } : GeminiEnv ℕ)).2 =
      [ApiEvent.modelCall] ∧
    ApiEvent.throttleAdmit ∉
      (analyzeJobPostingRun ({ apiKeyOk := true, modelResult := Outcome.ok 0 } : GeminiEnv ℕ)).2 := by
  exact ⟨rfl, by decide⟩

/-- Claim C2 as amended: the rateLimiter singleton exists but no
analyzeJobPosting run routes its model call through it - every run produces
no throttle admission, while a call routed through rateLimiter.execute would
be preceded by one. -/
theorem C2_amended_model_calls_bypass_throttle {α : Type} (env : GeminiEnv α) :
    ApiEvent.throttleAdmit ∉ (analyzeJobPostingRun env).2 ∧
    ((analyzeJobPostingRun env).2 = [ApiEvent.modelCall] ∨
      (analyzeJobPostingRun env).2 = []) ∧
    (∀ work, (rateLimiterExecuteRun work env).2.head? = some ApiEvent.throttleAdmit) := by
  unfold analyzeJobPostingRun
  by_cases hk : env.apiKeyOk = false
  · rw [if_pos hk]
    exact ⟨by simp, Or.inr rfl, fun work => rfl⟩
  · rw [if_neg hk]
    cases env.modelResult with
    | ok v => exact ⟨by simp, Or.inl rfl, fun work => rfl⟩
    | err e => exact ⟨by simp, Or.inl rfl, fun work => rfl⟩

/-- Claim C2 witness: a run without a configured key performs no throttle
admission, while the same work routed through rateLimiter.execute is headed
by an admission event. -/
theorem C2_witness :
    ApiEvent.throttleAdmit ∉
      (analyzeJobPostingRun ({ apiKeyOk := false, modelResult := Outcome.ok 0 } : GeminiEnv ℕ)).2 ∧
    (rateLimiterExecuteRun (fun env => analyzeJobPostingRun env)
        ({ apiKeyOk := false, modelResult := Outcome.ok 0 } : GeminiEnv ℕ)).2.head? =
      some ApiEvent.throttleAdmit :=
  ⟨(C2_amended_model_calls_bypass_throttle
      ({ apiKeyOk := false, modelResult := Outcome.ok 0 } : GeminiEnv ℕ)).1,
   (C2_amended_model_calls_bypass_throttle
      ({ apiKeyOk := false, modelResult := Outcome.ok 0 } : GeminiEnv ℕ)).2.2
      (fun env => analyzeJobPostingRun env)⟩

/-- Claim C3: in every run of one RateLimiter instance, consecutive admission
timestamps differ by at least minDelay milliseconds, and every trailing
60-second window contains at most requestsPerMinute recorded admissions. -/
theorem C3_window_and_spacing_invariant {α : Type} (n0 : ℤ) (fuel : ℕ)
    (tasks : List (TaskSpec α)) :
    List.Chain' (fun a b => a + minDelay ≤ b)
      (processQueue fuel (initState n0) tasks).1.admissions ∧
    ∀ u : ℤ,
      ((processQueue fuel (initState n0) tasks).1.admissions.filter (windowPred u)).length ≤
        requestsPerMinute := by
  have h := processQueue_inv fuel n0 tasks
  exact ⟨h.chain, h.window⟩

/-- Claim C4: a task whose work fails with an error not classified as quota
exhaustion has its caller future rejected with that error on the first
failure, and every queued task still executes (the drain loop emits one event
per task, in order). -/
theorem C4_nonquota_rejected_and_queue_continues {α : Type} (fuel : ℕ) (st : RLState)
    (tasks : List (TaskSpec α)) (h : tasks.length ≤ fuel)
    (i : ℕ) (task : TaskSpec α) (ht : tasks[i]? = some task) (e : JsError)
    (he : task.outcome = Outcome.err e) (_hq : isRateLimitError e = false) :
    (processQueue fuel st tasks).2.1.length = tasks.length ∧
    ∃ ev, (processQueue fuel st tasks).2.1[i]? = some ev ∧ ev.id = task.id ∧
      ev.promise = PromiseState.rejected e := by
  refine ⟨processQueue_events_length fuel st tasks h, ?_⟩
  obtain ⟨ev, h1, h2, h3⟩ := processQueue_event_at fuel st tasks h i task ht
  rw [he] at h3
  exact ⟨ev, h1, h2, h3⟩

/-- Claim C4 witness: a two-task queue whose first task fails with a
non-quota error; the first event is a rejection and the second task still
executes. -/
theorem C4_witness :
    (([({ id := 3, outcome := Outcome.err plainFailure, dur := 0 } : TaskSpec ℕ),
       { id := 4, outcome := Outcome.ok 5, dur := 0 }] : List (TaskSpec ℕ)).length ≤ 2) ∧
    (([({ id := 3, outcome := Outcome.err plainFailure, dur := 0 } : TaskSpec ℕ),
       { id := 4, outcome := Outcome.ok 5, dur := 0 }] : List (TaskSpec ℕ))[0]? =
      some { id := 3, outcome := Outcome.err plainFailure, dur := 0 }) ∧
    isRateLimitError plainFailure = false ∧
    ((processQueue 2 (initState 0)
        [({ id := 3, outcome := Outcome.err plainFailure, dur := 0 } : TaskSpec ℕ),
         { id := 4, outcome := Outcome.ok 5, dur := 0 }]).2.1.length = 2 ∧
     ∃ ev, (processQueue 2 (initState 0)
        [({ id := 3, outcome := Outcome.err plainFailure, dur := 0 } : TaskSpec ℕ),
         { id := 4, outcome := Outcome.ok 5, dur := 0 }]).2.1[0]? = some ev ∧
        ev.id = 3 ∧ ev.promise = PromiseState.rejected plainFailure) :=
  ⟨by decide, by decide, by decide,
   C4_nonquota_rejected_and_queue_continues 2 (initState 0)
     [({ id := 3, outcome := Outcome.err plainFailure, dur := 0 } : TaskSpec ℕ),
      { id := 4, outcome := Outcome.ok 5, dur := 0 }] (by decide) 0
     ({ id := 3, outcome := Outcome.err plainFailure, dur := 0 } : TaskSpec ℕ) (by decide)
     plainFailure (by decide) (by decide)⟩

/-- Claim C5: tasks begin execution in FIFO submission order (the started
list is always a prefix of the submitted list), and at most one task driven
by the instance is in flight at any reachable state, enforced through the
processing flag. -/
theorem C5_fifo_order_and_single_flight (s : SchedState) (h : SchedReach s) :
    (∃ rest, s.started ++ rest = s.submitted) ∧ inFlightCount s ≤ 1 := by
  obtain ⟨h1, h2, h3⟩ := schedReach_inv h
  refine ⟨⟨s.queue, h3⟩, ?_⟩
  calc inFlightCount s ≤ s.drainers.length := List.length_filter_le _ _
    _ ≤ 1 := h2

/-- Claim C5 witness: submit task 5, submit task 6 while the drain loop is
busy, then start task 5; the reached state satisfies the FIFO and
single-flight properties. -/
theorem C5_witness :
    SchedReach { queue := [6], processing := true, drainers := [DrainPC.running 5],
                 submitted := [5, 6], started := [5] } ∧
    ((∃ rest, ([5] : List ℕ) ++ rest = [5, 6]) ∧
      inFlightCount { queue := [6], processing := true, drainers := [DrainPC.running 5],
                      submitted := [5, 6], started := [5] } ≤ 1) := by
  have h1 : SchedStep initSched
      ⟨[5], true, [DrainPC.atHead], [5], []⟩ :=
    SchedStep.submitSpawn initSched 5 rfl
  have h2 : SchedStep (⟨[5], true, [DrainPC.atHead], [5], []⟩ : SchedState)
      ⟨[5, 6], true, [DrainPC.atHead], [5, 6], []⟩ :=
    SchedStep.submitBusy _ 6 rfl
  have h3 : SchedStep (⟨[5, 6], true, [DrainPC.atHead], [5, 6], []⟩ : SchedState)
      ⟨[6], true, [DrainPC.running 5], [5, 6], [5]⟩ :=
    SchedStep.startTask _ [] [] 5 [6] rfl rfl
  have hreach : SchedReach
      ⟨[6], true, [DrainPC.running 5], [5, 6], [5]⟩ :=
    Relation.ReflTransGen.tail
      (Relation.ReflTransGen.tail
        (Relation.ReflTransGen.tail Relation.ReflTransGen.refl h1) h2) h3
  exact ⟨hreach, C5_fifo_order_and_single_flight _ hreach⟩

/-- Claim C10: the closure pushed by execute never throws (its exit is always
normal), it settles the pending caller promise exactly once - resolving on a
successful outcome, rejecting on a failed one, and leaving an already settled
promise unchanged - and consequently the rate-limit catch branch of the drain
loop never runs in any execution. -/
theorem C10_closure_settles_once_never_throws {α : Type} :
    (∀ (o : Outcome α) (p : PromiseState α), (queuedClosure o p).2 = Except.ok ()) ∧
    (∀ v : α,
      (queuedClosure (Outcome.ok v) (PromiseState.pending : PromiseState α)).1 =
        PromiseState.resolved v) ∧
    (∀ e : JsError,
      (queuedClosure (Outcome.err e) (PromiseState.pending : PromiseState α)).1 =
        PromiseState.rejected e) ∧
    (∀ (o : Outcome α) (p : PromiseState α), p ≠ PromiseState.pending →
      (queuedClosure o p).1 = p) ∧
    (∀ (fuel : ℕ) (st : RLState) (q : List (TaskSpec α)),
      (processQueue fuel st q).2.2 = 0) := by
  refine ⟨queuedClosure_exit, fun v => rfl, fun e => rfl, ?_, processQueue_retries⟩
  intro o p hp
  cases o with
  | ok v => cases p with
    | pending => exact absurd rfl hp
    | resolved w => rfl
    | rejected e2 => rfl
  | err e => cases p with
    | pending => exact absurd rfl hp
    | resolved w => rfl
    | rejected e2 => rfl

/-- Claim C10 witness: an already resolved promise is left unchanged by the
closure of a later execution. -/
theorem C10_witness :
    ((PromiseState.resolved 4 : PromiseState ℕ) ≠ PromiseState.pending) ∧
    (queuedClosure (Outcome.ok 3) (PromiseState.resolved 4 : PromiseState ℕ)).1 =
      PromiseState.resolved 4 :=
  ⟨by decide,
   (@C10_closure_settles_once_never_throws ℕ).2.2.2.1 (Outcome.ok 3)
     (PromiseState.resolved 4) (by decide)⟩

theorem parseFloat_zero_s : parseFloat "0s" = some 0 := by
  have hd : "0s".data = ['0', 's'] := rfl
  unfold parseFloat
  rw [hd]
  simp +decide [List.takeWhile]
  unfold digitsToQ
  simp [List.foldl]
  have h : ('0'.toNat - 48 : ℕ) = 0 := by decide
  unfold digitVal
  rw [h]
  norm_num

/-- Claim C6, counterexample: an error carrying a structured RetryInfo hint
of 0 seconds is quota-classified; the claim prescribes a delay of 0 ms
(seconds converted to milliseconds), but the code uses the 12000 ms fallback
because the or-else applied to the extracted value treats 0 as falsy. -/
theorem C6_zero_hint_counterexample :
    isRateLimitError quotaZeroHint = true ∧
    claimRetryDelay quotaZeroHint = 0 ∧
    retryDelayUsed quotaZeroHint = 12000 := by
  refine ⟨by decide, ?_, ?_⟩
  · unfold claimRetryDelay structuredHint quotaZeroHint
    simp +decide [List.find?, strIncludes, parseFloat_zero_s]
  · have h2 : extractRetryDelay quotaZeroHint = some (jsMul (parseFloat "0s") 1000) := by
      unfold extractRetryDelay quotaZeroHint
      simp +decide [List.find?, strIncludes]
    rw [retryDelayUsed, h2, parseFloat_zero_s]
    norm_num [jsMul, jsNumOrElse]

/-- Claim C6 as amended: the delay is determined by the claimed priority
order - structured RetryInfo hint, else textual retry-in pattern, else the
12000 ms fallback - except that a selected hint parsing to NaN or 0 also
falls back to 12000 ms, because the code tests the falsiness of the extracted
value rather than its presence. -/
theorem C6_amended_retry_delay (e : JsError) :
    retryDelayUsed e = amendedRetryDelay e := by
  unfold retryDelayUsed amendedRetryDelay extractRetryDelay structuredHint
  simp only []
  cases hfind : ((e.error.bind InnerError.details).bind
      (fun ds => ds.find? (fun d =>
        ((d.atType.map (fun s => strIncludes s "RetryInfo")).getD false)))).bind
      ErrorDetail.retryDelay with
  | none =>
    show jsNumOrElse (retryDelayFromMessage e) 12000 =
      (match messageHint e with
       | some cap => fallback12IfFalsy (jsMul (parseFloat cap) 1000)
       | none => 12000)
    exact retryDelayFromMessage_or e
  | some s =>
    by_cases hs : s = ""
    · subst hs
      show jsNumOrElse (retryDelayFromMessage e) 12000 =
        (match messageHint e with
         | some cap => fallback12IfFalsy (jsMul (parseFloat cap) 1000)
         | none => 12000)
      exact retryDelayFromMessage_or e
    · show jsNumOrElse (if s ≠ "" then some (jsMul (parseFloat s) 1000)
          else retryDelayFromMessage e) 12000 =
        (match (if s ≠ "" then some s else none : Option String) with
         | some s2 => fallback12IfFalsy (jsMul (parseFloat s2) 1000)
         | none =>
           match messageHint e with
           | some cap => fallback12IfFalsy (jsMul (parseFloat cap) 1000)
           | none => 12000)
      rw [if_pos hs, if_pos hs]
      exact jsNumOrElse_some _

/-- Claim C7: the score engine is total and for every input the overall score
is the rounded sum of the four sub-scores and lies between 0 and 100; the
record with every optional field absent produces the all-zero breakdown. -/
theorem C7_total_and_overall_bounds (attrs : ExtractedAttributes) :
    0 ≤ (calculateScores attrs).overall ∧
    (calculateScores attrs).overall ≤ 100 ∧
    (calculateScores attrs).overall =
      round ((calculateScores attrs).salary + (calculateScores attrs).location +
             (calculateScores attrs).costOfLiving + (calculateScores attrs).redFlags) ∧
    calculateScores { salaryMin := none, salaryMax := none, workLocationType := "",
                      costOfLivingScore := none, postingAgeInDays := none } =
      { overall := 0, salary := 0, location := 0, costOfLiving := 0, redFlags := 0 } := by
  obtain ⟨s1, s2⟩ := salarySubScore_bounds attrs
  obtain ⟨l1, l2⟩ := locationSubScore_bounds attrs.workLocationType
  obtain ⟨c1, c2⟩ := costOfLivingSubScore_bounds attrs.costOfLivingScore
  obtain ⟨r1, r2⟩ := redFlagsSubScore_bounds attrs.postingAgeInDays
  have hov : (calculateScores attrs).overall =
      round (salarySubScore attrs + locationSubScore attrs.workLocationType +
             costOfLivingSubScore attrs.costOfLivingScore +
             redFlagsSubScore attrs.postingAgeInDays) := rfl
  refine ⟨?_, ?_, rfl, ?_⟩
  · rw [hov, round_eq, Int.le_floor]
    push_cast
    linarith
  · rw [hov, round_eq]
    have hlt : salarySubScore attrs + locationSubScore attrs.workLocationType +
        costOfLivingSubScore attrs.costOfLivingScore +
        redFlagsSubScore attrs.postingAgeInDays + 1 / 2 < ((101 : ℤ) : ℚ) := by
      push_cast
      linarith
    have hfl := Int.floor_lt.mpr hlt
    omega
  · simp +decide [calculateScores, salarySubScore, locationSubScore,
      costOfLivingSubScore, redFlagsSubScore]

/-- Claim C8: the salary sub-score is 0 when either bound is absent;
otherwise it is 25 plus a spread bonus on (salaryMax - salaryMin) / salaryMax
of +10 below 15 percent, +5 below 30 percent and +0 otherwise, and a zero
salaryMax yields the bare 25 rather than a division error. -/
theorem C8_salary_subscore_rule (attrs : ExtractedAttributes) :
    ((attrs.salaryMin = none ∨ attrs.salaryMax = none) →
      (calculateScores attrs).salary = 0) ∧
    (∀ smin smax : ℚ, attrs.salaryMin = some smin → attrs.salaryMax = some smax →
      ((smax = 0 → (calculateScores attrs).salary = 25 + 0) ∧
       (smax ≠ 0 →
         ((smax - smin) / smax < 15 / 100 → (calculateScores attrs).salary = 25 + 10) ∧
         (¬ (smax - smin) / smax < 15 / 100 → (smax - smin) / smax < 30 / 100 →
            (calculateScores attrs).salary = 25 + 5) ∧
         (¬ (smax - smin) / smax < 30 / 100 →
            (calculateScores attrs).salary = 25 + 0)))) := by
  constructor
  · intro hnone
    show salarySubScore attrs = 0
    cases hmin : attrs.salaryMin with
    | none => cases hmax : attrs.salaryMax <;> simp [salarySubScore, hmin, hmax]
    | some smin0 =>
      cases hmax : attrs.salaryMax with
      | none => simp [salarySubScore, hmin, hmax]
      | some smax0 =>
        rcases hnone with h | h
        · rw [hmin] at h
          exact absurd h (by simp)
        · rw [hmax] at h
          exact absurd h (by simp)
  · intro smin smax hmin hmax
    have hval : (calculateScores attrs).salary =
        (if smax = 0 then (25 : ℚ) + 0
         else if (smax - smin) / smax < 15 / 100 then 25 + 10
         else if (smax - smin) / smax < 30 / 100 then 25 + 5
         else 25 + 0) := by
      show salarySubScore attrs = _
      unfold salarySubScore
      rw [hmin, hmax]
      simp only []
      by_cases h0 : smax = 0
      · rw [if_pos h0, if_pos h0]
      · rw [if_neg h0, if_neg h0]
        by_cases h1 : (smax - smin) / smax < 15 / 100
        · rw [if_pos h1, if_pos h1]
        · rw [if_neg h1, if_neg h1]
          by_cases h2 : (smax - smin) / smax < 30 / 100
          · rw [if_pos h2, if_pos h2]
          · rw [if_neg h2, if_neg h2]
    refine ⟨?_, ?_⟩
    · intro h0
      rw [hval, if_pos h0]
    · intro h0
      refine ⟨?_, ?_, ?_⟩
      · intro h1
        rw [hval, if_neg h0, if_pos h1]
      · intro h1 h2
        rw [hval, if_neg h0, if_neg h1, if_pos h2]
      · intro h2
        have h1 : ¬ (smax - smin) / smax < 15 / 100 := by
          intro hx
          exact h2 (by linarith)
        rw [hval, if_neg h0, if_neg h1, if_neg h2]

/-- Claim C8 witness: a tight range of 100000 to 105000 has spread below 15
percent and scores 25 plus the 10-point bonus. -/
theorem C8_witness :
    ((105000 : ℚ) ≠ 0) ∧ (((105000 : ℚ) - 100000) / 105000 < 15 / 100) ∧
    (calculateScores { salaryMin := some 100000, salaryMax := some 105000,
                       workLocationType := "remote", costOfLivingScore := none,
                       postingAgeInDays := none }).salary = 25 + 10 :=
  ⟨by norm_num, by norm_num,
   (((C8_salary_subscore_rule _).2 100000 105000 rfl rfl).2
      (by norm_num)).1 (by norm_num)⟩

/-- Claim C9: the redFlags sub-score is the half-open step function of the
posting age - below 7 days 15, below 14 days 12, below 30 days 7.5, below 60
days 3, otherwise 0 - with a negative age clamped to 0 (scoring 15) and an
absent age scoring 0. -/
theorem C9_redflags_subscore_rule (attrs : ExtractedAttributes) :
    (attrs.postingAgeInDays = none → (calculateScores attrs).redFlags = 0) ∧
    (∀ age : ℚ, attrs.postingAgeInDays = some age →
      ((age < 0 → (calculateScores attrs).redFlags = 15) ∧
       (0 ≤ age → age < 7 → (calculateScores attrs).redFlags = 15) ∧
       (7 ≤ age → age < 14 → (calculateScores attrs).redFlags = 12) ∧
       (14 ≤ age → age < 30 → (calculateScores attrs).redFlags = 15 / 2) ∧
       (30 ≤ age → age < 60 → (calculateScores attrs).redFlags = 3) ∧
       (60 ≤ age → (calculateScores attrs).redFlags = 0))) := by
  constructor
  · intro h
    show redFlagsSubScore attrs.postingAgeInDays = 0
    rw [h]
    rfl
  · intro age hage
    have hval : (calculateScores attrs).redFlags =
        (if max age 0 < 7 then (15 : ℚ)
         else if max age 0 < 14 then 12
         else if max age 0 < 30 then 15 / 2
         else if max age 0 < 60 then 3
         else 0) := by
      show redFlagsSubScore attrs.postingAgeInDays = _
      rw [hage]
      rfl
    refine ⟨?_, ?_, ?_, ?_, ?_, ?_⟩
    · intro h
      have hm : max age 0 = 0 := max_eq_right (le_of_lt h)
      rw [hval, hm, if_pos (by norm_num)]
    · intro h0 h
      have hm : max age 0 = age := max_eq_left h0
      rw [hval, hm, if_pos h]
    · intro h7 h
      have hm : max age 0 = age := max_eq_left (by linarith)
      rw [hval, hm, if_neg (by linarith), if_pos h]
    · intro h14 h
      have hm : max age 0 = age := max_eq_left (by linarith)
      rw [hval, hm, if_neg (by linarith), if_neg (by linarith), if_pos h]
    · intro h30 h
      have hm : max age 0 = age := max_eq_left (by linarith)
      rw [hval, hm, if_neg (by linarith), if_neg (by linarith), if_neg (by linarith),
        if_pos h]
    · intro h60
      have hm : max age 0 = age := max_eq_left (by linarith)
      rw [hval, hm, if_neg (by linarith), if_neg (by linarith), if_neg (by linarith),
        if_neg (by linarith)]

/-- Claim C9 witness: a posting exactly 7 days old falls into the lower tier
and scores 12. -/
theorem C9_witness :
    ((7 : ℚ) ≤ 7) ∧ ((7 : ℚ) < 14) ∧
    (calculateScores { salaryMin := none, salaryMax := none,
                       workLocationType := "remote", costOfLivingScore := none,
                       postingAgeInDays := some 7 }).redFlags = 12 :=
  ⟨by norm_num, by norm_num,
   (((C9_redflags_subscore_rule _).2 7 rfl).2.2.1) (by norm_num) (by norm_num)⟩

end HireLens
